import Mathlib

set_option maxRecDepth 16000

deriving instance DecidableEq for Except

/-!
Verification of the multi-provider LLM gateway core: the A/B experiment
engine (`ab_testing.py`), the provider router with fallback
(`provider_manager.py`), and the request-pipeline experiment-override step
(`main.py`), shallowly embedded in Lean.

Modelling conventions:
* Python `float` values are embedded as `ℚ` (the code only adds, multiplies,
  divides and compares them).
* Python `dict` (insertion-ordered) is embedded as an association list
  `List (String × α)`; updating an existing key keeps its position, a new
  key is appended at the end, exactly as in CPython.
* Raising code is embedded with `Except String`; a raised exception is
  `Except.error` carrying the `str()` of the exception.
* `hashlib.sha256(·).hexdigest()` and wall-clock `datetime.utcnow()` are
  external inputs; they are passed in as an explicit function `String →
  String` and an explicit `Int` timestamp.
-/

/-- Lookup in an insertion-ordered Python dict (`d[k]` / `k in d`). -/
def dictLookup {α : Type} (d : List (String × α)) (k : String) : Option α :=
  match d with
  | [] => none
  | (k', v) :: rest => if k' = k then some v else dictLookup rest k

/-- Python dict assignment `d[k] = v`: replace in place if the key exists,
append otherwise. -/
def dictSet {α : Type} (d : List (String × α)) (k : String) (v : α) :
    List (String × α) :=
  match d with
  | [] => [(k, v)]
  | (k', v') :: rest =>
      if k' = k then (k, v) :: rest else (k', v') :: dictSet rest k v

/-- `models.ExperimentVariant` (pydantic model). -/
structure ExperimentVariant where
  variant_id : String
  name : String
  provider : String
  model : String
  temperature : ℚ
  max_tokens : Option Nat
  system_prompt : Option String
deriving DecidableEq, Repr

/-- `models.Experiment` (pydantic model); `start_date`/`end_date` are
timestamps embedded as integers. -/
structure Experiment where
  experiment_id : String
  name : String
  description : String
  variants : List ExperimentVariant
  traffic_split : List (String × ℚ)
  start_date : Int
  end_date : Option Int
  is_active : Bool
deriving DecidableEq, Repr

/-- `models.ExperimentMetrics` (pydantic model), with its field defaults. -/
structure ExperimentMetrics where
  variant_id : String
  total_requests : Nat
  total_tokens : Nat
  total_cost : ℚ
  avg_latency_ms : ℚ
  error_rate : ℚ
  user_satisfaction : Option ℚ
deriving DecidableEq, Repr

/-- A zeroed metrics row, `ExperimentMetrics(variant_id=vid)` with the
pydantic defaults of `models.py`. -/
def initMetrics (vid : String) : ExperimentMetrics :=
  { variant_id := vid
    total_requests := 0
    total_tokens := 0
    total_cost := 0
    avg_latency_ms := 0
    error_rate := 0
    user_satisfaction := none }

/-- `ABTestingManager` state: `self.experiments`, `self.metrics`
(a `defaultdict(dict)`), and `self.salt`. -/
structure ABTestingManager where
  experiments : List (String × Experiment)
  metrics : List (String × List (String × ExperimentMetrics))
  salt : String
deriving DecidableEq, Repr

/-- Python set equality of two id lists:
`set xs = set ys` ignoring order and multiplicity. -/
def sameSetB (xs ys : List String) : Bool :=
  xs.all (fun x => ys.contains x) && ys.all (fun y => xs.contains y)

/-- `ABTestingManager.create_experiment`.  Validates that the traffic
split sums into `[0.99, 1.01]`, then that the variant-id set equals the
split-key set; on failure returns `False` with the state untouched, on
success stores the experiment and a zeroed metrics row per variant.
The metrics write goes through the `defaultdict`: an absent inner dict
starts empty, an existing one is updated in place. -/
def create_experiment (m : ABTestingManager) (e : Experiment) :
    Bool × ABTestingManager :=
  let total_traffic := (e.traffic_split.map Prod.snd).sum
  if ¬ ((99 : ℚ) / 100 ≤ total_traffic ∧ total_traffic ≤ (101 : ℚ) / 100) then
    (false, m)
  else
    let variant_ids := e.variants.map ExperimentVariant.variant_id
    let split_ids := e.traffic_split.map Prod.fst
    if ¬ (sameSetB variant_ids split_ids = true) then
      (false, m)
    else
      let exps := dictSet m.experiments e.experiment_id e
      let inner0 := (dictLookup m.metrics e.experiment_id).getD []
      let inner := e.variants.foldl
        (fun acc v => dictSet acc v.variant_id (initMetrics v.variant_id)) inner0
      (true, { m with
        experiments := exps
        metrics := dictSet m.metrics e.experiment_id inner })

/-- `ABTestingManager.record_metrics`.  Unknown experiment or variant ids
are silent no-ops (the `not in` membership tests do not populate the
`defaultdict`); otherwise the row is updated by the online formulas, with
`n` read before the increment. -/
def record_metrics (m : ABTestingManager) (eid vid : String) (tokens : Nat)
    (cost latency_ms : ℚ) (error : Bool) : ABTestingManager :=
  match dictLookup m.metrics eid with
  | none => m
  | some inner =>
    match dictLookup inner vid with
    | none => m
    | some mt =>
      let n : ℚ := (mt.total_requests : ℚ)
      let mt2 : ExperimentMetrics :=
        { mt with
          total_requests := mt.total_requests + 1
          total_tokens := mt.total_tokens + tokens
          total_cost := mt.total_cost + cost
          avg_latency_ms := (mt.avg_latency_ms * n + latency_ms) / (n + 1)
          error_rate := (mt.error_rate * n + (if error then 1 else 0)) / (n + 1) }
      { m with metrics := dictSet m.metrics eid (dictSet inner vid mt2) }

/-- `ABTestingManager.record_satisfaction`.  Unknown ids are silent
no-ops; the first sample sets the average directly, later samples use the
online mean with the request count as denominator.  (In Python a second
sample with `total_requests = 0` would divide by zero; in `ℚ` that
division yields `0` — no claim touches that path.) -/
def record_satisfaction (m : ABTestingManager) (eid vid : String)
    (score : ℚ) : ABTestingManager :=
  match dictLookup m.metrics eid with
  | none => m
  | some inner =>
    match dictLookup inner vid with
    | none => m
    | some mt =>
      let mt2 : ExperimentMetrics :=
        match mt.user_satisfaction with
        | none => { mt with user_satisfaction := some score }
        | some s =>
            let n : ℚ := (mt.total_requests : ℚ)
            { mt with user_satisfaction := some ((s * (n - 1) + score) / n) }
      { m with metrics := dictSet m.metrics eid (dictSet inner vid mt2) }

/-- Value of one hex digit, as accepted by Python `int(·, 16)`. -/
def hexDigitVal (c : Char) : Option Nat :=
  if '0' ≤ c ∧ c ≤ '9' then some (c.toNat - '0'.toNat)
  else if 'a' ≤ c ∧ c ≤ 'f' then some (c.toNat - 'a'.toNat + 10)
  else if 'A' ≤ c ∧ c ≤ 'F' then some (c.toNat - 'A'.toNat + 10)
  else none

/-- Auxiliary accumulator loop for `intFromHex`. -/
def intFromHexList (acc : Nat) : List Char → Option Nat
  | [] => some acc
  | c :: cs =>
    match hexDigitVal c with
    | some d => intFromHexList (acc * 16 + d) cs
    | none => none

/-- Python `int(s, 16)` on a plain lowercase/uppercase hex string:
`none` models the `ValueError` raised on an empty or non-hex string. -/
def intFromHex (s : String) : Option Nat :=
  if s = "" then none else intFromHexList 0 s.toList

/-- The `return experiment.variants[0]` fallback; Python raises
`IndexError` on an empty list. -/
def fallbackFirst (variants : List ExperimentVariant) :
    Except String (Option ExperimentVariant) :=
  match variants with
  | [] => Except.error "IndexError"
  | v :: _ => Except.ok (some v)

/-- The `for variant in experiment.variants` loop of `assign_variant`,
accumulating `cumulative` and returning the first variant with
`random_value < cumulative`; a variant id missing from the traffic
split raises `KeyError`; a fully traversed loop falls through to `fb`. -/
def assignWalk (split : List (String × ℚ)) (r : ℚ)
    (fb : Except String (Option ExperimentVariant)) :
    ℚ → List ExperimentVariant → Except String (Option ExperimentVariant)
  | _, [] => fb
  | cumulative, v :: rest =>
    match dictLookup split v.variant_id with
    | none => Except.error "KeyError"
    | some f =>
      if r < cumulative + f then Except.ok (some v)
      else assignWalk split r fb (cumulative + f) rest

/-- `ABTestingManager.assign_variant`.  `sha256hex` stands for
`hashlib.sha256(·.encode()).hexdigest()` (an external library function,
passed in explicitly), `now` for `datetime.utcnow()`. -/
def assign_variant (sha256hex : String → String) (now : Int)
    (m : ABTestingManager) (experiment_id user_id : String) :
    Except String (Option ExperimentVariant) :=
  match dictLookup m.experiments experiment_id with
  | none => Except.ok none
  | some experiment =>
    if experiment.is_active = false then Except.ok none
    else if (match experiment.end_date with
             | some d => decide (d < now)
             | none => false) = true then Except.ok none
    else
      let hash_input := experiment_id ++ ":" ++ user_id ++ ":" ++ m.salt
      let hash_value := sha256hex hash_input
      match intFromHex (hash_value.take 16) with
      | none => Except.error "ValueError"
      | some hash_int =>
        let random_value : ℚ := ((hash_int % 10000 : ℕ) : ℚ) / 10000
        assignWalk experiment.traffic_split random_value
          (fallbackFirst experiment.variants) 0 experiment.variants

/-- Running cumulative sums of a list starting from `c`:
`scanSums c [x, y] = [c + x, c + x + y]`. -/
def scanSums (c : ℚ) : List ℚ → List ℚ
  | [] => []
  | x :: xs => (c + x) :: scanSums (c + x) xs

/-- The assignment rule as the specification words it: walk the variants
in declared order paired with their cumulative traffic-split fractions and
take the first one whose cumulative fraction strictly exceeds the value;
if none is selected, the first declared variant. -/
def specPickVariant (split : List (String × ℚ))
    (variants : List ExperimentVariant) (r : ℚ) : Option ExperimentVariant :=
  let fracs := variants.map (fun v => (dictLookup split v.variant_id).getD 0)
  match (variants.zip (scanSums 0 fracs)).find? (fun p => decide (r < p.2)) with
  | some p => some p.1
  | none => variants.head?

/-- The deterministic bucket value and variant the specification
prescribes for a hash integer `hv`: reduce `hv` modulo 10000, normalize
to a value in `[0, 1)`, and bucket it by cumulative traffic split. -/
def specAssignVariant (e : Experiment) (hv : Nat) : Option ExperimentVariant :=
  specPickVariant e.traffic_split e.variants (((hv % 10000 : ℕ) : ℚ) / 10000)

/-- Python `(metrics.get("user_satisfaction", 0.5) or 0.5)`: the key is
always present in the results snapshot, and `or` replaces both `None`
and the falsy `0.0` by `0.5`. -/
def satOrHalf (sat : Option ℚ) : ℚ :=
  match sat with
  | none => 1 / 2
  | some s => if s = 0 then 1 / 2 else s

/-- The weighted score `get_winner` computes for one variant row. -/
def winnerScore (mt : ExperimentMetrics) : ℚ :=
  (1 - mt.error_rate) * (4 / 10)
    + (1 - min (mt.avg_latency_ms / 5000) 1) * (3 / 10)
    + satOrHalf mt.user_satisfaction * (3 / 10)

/-- The `for variant_id, metrics in results["variants"].items()` loop of
`get_winner`.  In the source `best_score` starts at `float("-inf")`,
which every (finite) score strictly exceeds, so the accumulator is `none`
exactly until the first row has been scored. -/
def winnerFold :
    Option (String × ℚ) → List (String × ExperimentMetrics) → Option String
  | best, [] => best.map Prod.fst
  | best, (vid, mt) :: rest =>
    let score := winnerScore mt
    match best with
    | none => winnerFold (some (vid, score)) rest
    | some (bv, bs) =>
      if bs < score then winnerFold (some (vid, score)) rest
      else winnerFold (some (bv, bs)) rest

/-- `ABTestingManager.get_winner`.  Returns `none` when the experiment is
unknown (`results` carries an `"error"` key); otherwise scans the
per-variant rows of the results snapshot — the metrics dict in insertion
order — keeping the strictly best score. -/
def get_winner (m : ABTestingManager) (experiment_id : String) :
    Option String :=
  match dictLookup m.experiments experiment_id with
  | none => none
  | some _ =>
    winnerFold none ((dictLookup m.metrics experiment_id).getD [])

/-- Specification-side argmax: the first row whose score is at least
every row's score (highest score wins, first-seen order breaks ties). -/
def firstMaxBy (score : ExperimentMetrics → ℚ)
    (rows : List (String × ExperimentMetrics)) : Option String :=
  (rows.find?
    (fun p => rows.all (fun q => decide (score q.2 ≤ score p.2)))).map Prod.fst

/-- The per-variant score exactly as the claim words it: a recorded
satisfaction value, including `0.0`, is used as-is, and only a missing
one defaults to `0.5`. -/
def claimScore (mt : ExperimentMetrics) : ℚ :=
  (4 / 10) * (1 - mt.error_rate)
    + (3 / 10) * (1 - min (mt.avg_latency_ms / 5000) 1)
    + (3 / 10) * (match mt.user_satisfaction with
                  | some s => s
                  | none => 1 / 2)

/-- The winner the claim (satisfaction used as-is) would select. -/
def claimWinner (m : ABTestingManager) (experiment_id : String) :
    Option String :=
  match dictLookup m.experiments experiment_id with
  | none => none
  | some _ =>
    firstMaxBy claimScore ((dictLookup m.metrics experiment_id).getD [])

/-- The per-variant score as the amended claim words it: a satisfaction
value that is recorded and nonzero is used, while a missing or zero one
falls back to `0.5`. -/
def amendedScore (mt : ExperimentMetrics) : ℚ :=
  (4 / 10) * (1 - mt.error_rate)
    + (3 / 10) * (1 - min (mt.avg_latency_ms / 5000) 1)
    + (3 / 10) * (match mt.user_satisfaction with
                  | some s => if s = 0 then 1 / 2 else s
                  | none => 1 / 2)

/-- Result of one `provider.complete(...)` call: a successful
`ChatResponse` (kept abstract as its provider name plus an opaque
payload), a raised `RateLimitError(msg)`, or any other raised exception
with `str(e) = msg`. -/
inductive CallOutcome where
  | success (provider : String) (payload : String)
  | rateLimit (msg : String)
  | providerError (msg : String)
deriving DecidableEq, Repr

/-- End of one `provider.stream_complete(...)` generator after its chunks:
normal exhaustion, a raised `RateLimitError(msg)`, or another exception. -/
inductive StreamEnd where
  | done
  | rateLimit (msg : String)
  | failed (msg : String)
deriving DecidableEq, Repr

/-- `ProviderManager` state plus the behavior of the vendor backends for
one request: `providers` is the key set of the provider registry,
`fallback_order` the registration-order list, `behavior` the outcome of
`provider.complete`, `streamChunks`/`streamOutcome` the chunks yielded
and the end state of `provider.stream_complete`, and `enable_fallback`
the `settings.enable_fallback` flag. -/
structure ProviderEnv where
  providers : List String
  fallback_order : List String
  behavior : String → CallOutcome
  streamChunks : String → List String
  streamOutcome : String → StreamEnd
  enable_fallback : Bool

/-- Observable effects of one fallback run, in order: provider calls,
`asyncio.sleep` backoffs (seconds), and chunks yielded downstream. -/
inductive FallbackEvent where
  | call (name : String)
  | sleep (seconds : Nat)
  | yieldChunk (chunk : String)
deriving DecidableEq, Repr

/-- The provider attempt order of `complete_with_fallback` and
`stream_with_fallback`: the caller's provider first (when given) followed
by the rest of the registration order, else the registration order. -/
def provider_order (env : ProviderEnv) (provider_name : Option String) :
    List String :=
  match provider_name with
  | some p => p :: env.fallback_order.filter (fun q => ¬ q = p)
  | none => env.fallback_order

/-- `str(last_error)`: Python prints the `None` object as `"None"`. -/
def showLastError : Option String → String
  | none => "None"
  | some s => s

/-- The aggregate error message of `complete_with_fallback`. -/
def aggregateMessage (attempts : List String) (last : Option String) :
    String :=
  "All providers failed. Attempts: " ++ String.intercalate "; " attempts
    ++ ". Last error: " ++ showLastError last

/-- The `for attempt, prov_name in enumerate(provider_order, 1)` loop of
`complete_with_fallback`.  `attempt` is the 1-based position in
`provider_order` (unregistered names are skipped but still counted),
`total` is `len(provider_order)`, `attempts` the accumulated
per-provider failure descriptions and `last` the last caught error. -/
def completeLoop (env : ProviderEnv) (total : Nat) :
    Nat → List String → List String → Option String →
    List FallbackEvent × Except String (String × String)
  | _, [], attempts, last =>
      ([], Except.error (aggregateMessage attempts last))
  | attempt, name :: rest, attempts, last =>
    if env.providers.contains name = false then
      completeLoop env total (attempt + 1) rest attempts last
    else
      match env.behavior name with
      | CallOutcome.success p payload =>
          ([FallbackEvent.call name], Except.ok (p, payload))
      | CallOutcome.rateLimit msg =>
          let attempts2 := attempts ++ [name ++ ": Rate limit exceeded"]
          if env.enable_fallback = true ∧ attempt < total then
            let res := completeLoop env total (attempt + 1) rest attempts2
              (some msg)
            (FallbackEvent.call name ::
              FallbackEvent.sleep (min (2 ^ attempt) 10) :: res.1, res.2)
          else
            ([FallbackEvent.call name],
              Except.error (aggregateMessage attempts2 (some msg)))
      | CallOutcome.providerError msg =>
          let attempts2 := attempts ++ [name ++ ": " ++ msg]
          if env.enable_fallback = true ∧ attempt < total then
            let res := completeLoop env total (attempt + 1) rest attempts2
              (some msg)
            (FallbackEvent.call name :: res.1, res.2)
          else
            ([FallbackEvent.call name],
              Except.error (aggregateMessage attempts2 (some msg)))

/-- `ProviderManager.complete_with_fallback`: the events it performs and
its outcome (the successful response, or the raised aggregate error). -/
def complete_with_fallback (env : ProviderEnv)
    (provider_name : Option String) :
    List FallbackEvent × Except String (String × String) :=
  let order := provider_order env provider_name
  completeLoop env order.length 1 order [] none

/-- The provider loop of `stream_with_fallback`.  Chunks already yielded
by a provider stay delivered; a caught error with fallback enabled and
positions remaining moves on to the next candidate, otherwise the loop
breaks and the terminal error is raised. -/
def streamLoop (env : ProviderEnv) (total : Nat) :
    Nat → List String → Option String →
    List FallbackEvent × Except String Unit
  | _, [], last =>
      ([], Except.error
        ("All streaming providers failed. Last error: " ++ showLastError last))
  | attempt, name :: rest, last =>
    if env.providers.contains name = false then
      streamLoop env total (attempt + 1) rest last
    else
      let ys := (env.streamChunks name).map FallbackEvent.yieldChunk
      match env.streamOutcome name with
      | StreamEnd.done => (FallbackEvent.call name :: ys, Except.ok ())
      | StreamEnd.rateLimit msg =>
          if env.enable_fallback = true ∧ attempt < total then
            let res := streamLoop env total (attempt + 1) rest (some msg)
            (FallbackEvent.call name :: ys
              ++ FallbackEvent.sleep (min (2 ^ attempt) 10) :: res.1, res.2)
          else
            (FallbackEvent.call name :: ys,
              Except.error
                ("All streaming providers failed. Last error: " ++ msg))
      | StreamEnd.failed msg =>
          if env.enable_fallback = true ∧ attempt < total then
            let res := streamLoop env total (attempt + 1) rest (some msg)
            (FallbackEvent.call name :: ys ++ res.1, res.2)
          else
            (FallbackEvent.call name :: ys,
              Except.error
                ("All streaming providers failed. Last error: " ++ msg))

/-- `ProviderManager.stream_with_fallback`: the chunks/sleeps/calls it
performs, in order, and whether the stream ends normally or raises. -/
def stream_with_fallback (env : ProviderEnv)
    (provider_name : Option String) :
    List FallbackEvent × Except String Unit :=
  let order := provider_order env provider_name
  streamLoop env order.length 1 order none

/-- Is a `provider.complete` outcome a raised exception? -/
def isFailureB : CallOutcome → Bool
  | CallOutcome.success _ _ => false
  | CallOutcome.rateLimit _ => true
  | CallOutcome.providerError _ => true

/-- The events produced by a run of consecutive failing candidates
starting at 1-based position `a`: each is called, and a rate-limited one
is followed by the `min(2 ** attempt, 10)` second backoff sleep. -/
def failEvents (env : ProviderEnv) : Nat → List String → List FallbackEvent
  | _, [] => []
  | a, n :: rest =>
    FallbackEvent.call n ::
      ((match env.behavior n with
        | CallOutcome.rateLimit _ => [FallbackEvent.sleep (min (2 ^ a) 10)]
        | _ => []) ++ failEvents env (a + 1) rest)

/-- The `attempts` list entry recorded for a failing provider. -/
def attemptEntry (env : ProviderEnv) (n : String) : String :=
  match env.behavior n with
  | CallOutcome.rateLimit _ => n ++ ": Rate limit exceeded"
  | CallOutcome.providerError msg => n ++ ": " ++ msg
  | CallOutcome.success _ _ => n ++ ": "

/-- `str(e)` of the exception a failing outcome raised. -/
def rawErrorMsg : CallOutcome → Option String
  | CallOutcome.success _ _ => none
  | CallOutcome.rateLimit msg => some msg
  | CallOutcome.providerError msg => some msg

/-- Does a `stream_complete` generator end in a raised exception? -/
def streamFailB : StreamEnd → Bool
  | StreamEnd.done => false
  | StreamEnd.rateLimit _ => true
  | StreamEnd.failed _ => true

/-- `str(e)` of the exception a failing stream end raised. -/
def streamRawMsg : StreamEnd → Option String
  | StreamEnd.done => none
  | StreamEnd.rateLimit msg => some msg
  | StreamEnd.failed msg => some msg

/-- Events of a run of consecutive failing streaming candidates starting
at position `a`: each is called, its chunks are yielded downstream, and a
rate-limited one is followed by the backoff sleep. -/
def streamFailEvents (env : ProviderEnv) : Nat → List String → List FallbackEvent
  | _, [] => []
  | a, n :: rest =>
    FallbackEvent.call n ::
      ((env.streamChunks n).map FallbackEvent.yieldChunk
        ++ (match env.streamOutcome n with
            | StreamEnd.rateLimit _ => [FallbackEvent.sleep (min (2 ^ a) 10)]
            | _ => [])
        ++ streamFailEvents env (a + 1) rest)

/-- Is an event a provider call? -/
def isCallEvent : FallbackEvent → Bool
  | FallbackEvent.call _ => true
  | FallbackEvent.sleep _ => false
  | FallbackEvent.yieldChunk _ => false

/-- The property the claim asserts of every streaming run: once a chunk
has been yielded downstream, no further provider is attempted. -/
def noFailoverAfterChunk : List FallbackEvent → Bool
  | [] => true
  | FallbackEvent.yieldChunk _ :: rest =>
      rest.all (fun e => isCallEvent e = false)
  | _ :: rest => noFailoverAfterChunk rest

/-- Does `needle` occur at the start of `hay`? -/
def isPrefixB : List Char → List Char → Bool
  | [], _ => true
  | _ :: _, [] => false
  | a :: as, b :: bs => decide (a = b) && isPrefixB as bs

/-- Does `needle` occur contiguously anywhere in `hay`? -/
def infixB : List Char → List Char → Bool
  | needle, [] => needle.isEmpty
  | needle, c :: rest => isPrefixB needle (c :: rest) || infixB needle rest

/-- Substring test on strings (`needle in hay` in Python). -/
def strContains (hay needle : String) : Bool :=
  infixB needle.toList hay.toList

/-- `models.Message` as the pipeline manipulates it: role and content
(the optional metadata dict plays no part in the override step). -/
structure Message where
  role : String
  content : String
deriving DecidableEq, Repr

/-- `models.ChatRequest` (pydantic model); the optional tools list is
not touched by the experiment-override step and is kept abstract as an
opaque tag. -/
structure ChatRequest where
  messages : List Message
  model : Option String
  provider : Option String
  stream : Bool
  max_tokens : Option Nat
  temperature : Option ℚ
  tools : Option String
  user_id : Option String
  session_id : Option String
  experiment_id : Option String
deriving DecidableEq, Repr

/-- The variant-override block of `create_chat_completion` (`main.py`
lines 195–206) applied to the request object: provider/model/temperature
are assigned unconditionally, `max_tokens` only when
`variant.max_tokens` is truthy (not `None` and not `0`), and a truthy
(non-`None`, non-empty) system prompt is inserted at position 0 of the
messages list. -/
def applyVariantOverride (req : ChatRequest) (v : ExperimentVariant) :
    ChatRequest :=
  let r1 : ChatRequest :=
    { req with
      provider := some v.provider
      model := some v.model
      temperature := some v.temperature }
  let r2 : ChatRequest :=
    match v.max_tokens with
    | none => r1
    | some t => if t = 0 then r1 else { r1 with max_tokens := some t }
  match v.system_prompt with
  | none => r2
  | some sp =>
    if sp = "" then r2
    else { r2 with messages := { role := "system", content := sp } :: r2.messages }

/-- Outcome of the experiment-override step of `create_chat_completion`.
The handler mutates the one `ChatRequest` object it was given in place
(`request.provider = ...`, `request.messages.insert(0, ...)`), so the
object the caller holds afterwards and the object the router receives
are the same; both fields record that shared object. -/
structure OverrideOutcome where
  routerRequest : ChatRequest
  callerRequest : ChatRequest
deriving DecidableEq, Repr

/-- The experiment-override step (`main.py` lines 185–206): with an
assigned variant the request object is updated in place, otherwise it is
left untouched. -/
def experimentOverrideStep (req : ChatRequest)
    (assigned : Option ExperimentVariant) : OverrideOutcome :=
  match assigned with
  | none => { routerRequest := req, callerRequest := req }
  | some v =>
    let r := applyVariantOverride req v
    { routerRequest := r, callerRequest := r }

/-! Concrete fixtures used to instantiate the theorems below. -/

/-- A two-variant experiment with a 50/50 split. -/
def variantA : ExperimentVariant :=
  { variant_id := "a", name := "Variant A", provider := "openai"
    model := "gpt-4", temperature := 7 / 10
    max_tokens := none, system_prompt := none }

/-- Second arm of the fixture experiment. -/
def variantB : ExperimentVariant :=
  { variant_id := "b", name := "Variant B", provider := "anthropic"
    model := "claude", temperature := 1 / 2
    max_tokens := none, system_prompt := none }

/-- A valid, active experiment over `variantA`/`variantB`. -/
def expFix : Experiment :=
  { experiment_id := "exp", name := "Fixture", description := "d"
    variants := [variantA, variantB]
    traffic_split := [("a", 1 / 2), ("b", 1 / 2)]
    start_date := 0, end_date := none, is_active := true }

/-- An empty manager with the default salt. -/
def mgrEmpty : ABTestingManager :=
  { experiments := [], metrics := [], salt := "default-salt" }

/-- A manager holding `expFix` with zeroed metrics rows, i.e. the state
right after a successful registration. -/
def mgrFix : ABTestingManager :=
  { experiments := [("exp", expFix)]
    metrics := [("exp", [("a", initMetrics "a"), ("b", initMetrics "b")])]
    salt := "default-salt" }

/-- A stand-in for the external SHA-256 hexdigest: a constant, valid
64-character hex string (any deterministic function will do for the
witnesses). -/
def shaFix : String → String :=
  fun _ =>
    "0000000000000000000000000000000000000000000000000000000000000000"

/-- An experiment whose split sums to 0.8. -/
def expBad08 : Experiment :=
  { expFix with traffic_split := [("a", 2 / 5), ("b", 2 / 5)] }

/-- An experiment whose split sums to 1.2. -/
def expBad12 : Experiment :=
  { expFix with traffic_split := [("a", 3 / 5), ("b", 3 / 5)] }

/-- An experiment whose split keys do not match its variant ids. -/
def expBadIds : Experiment :=
  { expFix with traffic_split := [("a", 1 / 2), ("c", 1 / 2)] }

/-- Metrics row with a recorded satisfaction of exactly 0.0. -/
def rowSatZero : ExperimentMetrics :=
  { variant_id := "a", total_requests := 10, total_tokens := 0
    total_cost := 0, avg_latency_ms := 0, error_rate := 0
    user_satisfaction := some 0 }

/-- Metrics row with a recorded satisfaction of 1/3. -/
def rowSatThird : ExperimentMetrics :=
  { variant_id := "b", total_requests := 10, total_tokens := 0
    total_cost := 0, avg_latency_ms := 0, error_rate := 0
    user_satisfaction := some (1 / 3) }

/-- Manager exhibiting the satisfaction-0.0 divergence of `get_winner`. -/
def mgrSatZero : ABTestingManager :=
  { experiments := [("exp", expFix)]
    metrics := [("exp", [("a", rowSatZero), ("b", rowSatThird)])]
    salt := "default-salt" }

/-- The claim's example pair: error rate 1.0 with latency 800 ms. -/
def rowAllErr : ExperimentMetrics :=
  { variant_id := "a", total_requests := 20, total_tokens := 0
    total_cost := 0, avg_latency_ms := 800, error_rate := 1
    user_satisfaction := none }

/-- The claim's example pair: error rate 0.0 with latency 400 ms. -/
def rowNoErr : ExperimentMetrics :=
  { variant_id := "b", total_requests := 20, total_tokens := 0
    total_cost := 0, avg_latency_ms := 400, error_rate := 0
    user_satisfaction := none }

/-- Manager for the claim's `get_winner` example. -/
def mgrWinnerPair : ABTestingManager :=
  { experiments := [("exp", expFix)]
    metrics := [("exp", [("a", rowAllErr), ("b", rowNoErr)])]
    salt := "default-salt" }

/-- A metrics row with accumulated traffic, for the overwrite claim. -/
def rowUsed : ExperimentMetrics :=
  { variant_id := "a", total_requests := 7, total_tokens := 1000
    total_cost := 3 / 10, avg_latency_ms := 650, error_rate := 1 / 7
    user_satisfaction := some (4 / 5) }

/-- A metrics row for a variant id absent from the new configuration. -/
def rowStale : ExperimentMetrics :=
  { variant_id := "old", total_requests := 3, total_tokens := 40
    total_cost := 1 / 100, avg_latency_ms := 900, error_rate := 0
    user_satisfaction := none }

/-- The previously registered configuration of experiment `"exp"`,
owning variants `a` and `old`. -/
def expOld : Experiment :=
  { expFix with
    variants := [variantA, { variantB with variant_id := "old" }]
    traffic_split := [("a", 1 / 2), ("old", 1 / 2)] }

/-- Manager state before the re-registration of `"exp"`. -/
def mgrReReg : ABTestingManager :=
  { experiments := [("exp", expOld)]
    metrics := [("exp", [("a", rowUsed), ("old", rowStale)])]
    salt := "default-salt" }

/-- Router fixture: `alpha` rate-limited, `beta` succeeding. -/
def envRateLimited : ProviderEnv :=
  { providers := ["alpha", "beta"]
    fallback_order := ["alpha", "beta"]
    behavior := fun n =>
      if n = "alpha" then CallOutcome.rateLimit "429" else CallOutcome.success n "ok"
    streamChunks := fun _ => []
    streamOutcome := fun _ => StreamEnd.done
    enable_fallback := true }

/-- Router fixture: both providers fail with distinct generic errors,
for both the single-shot and the streaming path. -/
def envAllFail : ProviderEnv :=
  { providers := ["alpha", "beta"]
    fallback_order := ["alpha", "beta"]
    behavior := fun n =>
      if n = "alpha" then CallOutcome.providerError "errA"
      else CallOutcome.providerError "errB"
    streamChunks := fun _ => []
    streamOutcome := fun n =>
      if n = "alpha" then StreamEnd.failed "errA" else StreamEnd.failed "errB"
    enable_fallback := true }

/-- Streaming fixture: `alpha` yields one chunk and then raises, `beta`
streams to completion. -/
def envMidStream : ProviderEnv :=
  { providers := ["alpha", "beta"]
    fallback_order := ["alpha", "beta"]
    behavior := fun _ => CallOutcome.providerError "x"
    streamChunks := fun n => if n = "alpha" then ["a1"] else ["b1"]
    streamOutcome := fun n =>
      if n = "alpha" then StreamEnd.failed "boom" else StreamEnd.done
    enable_fallback := true }

/-- A caller request that already carries a leading system message. -/
def reqFix : ChatRequest :=
  { messages := [{ role := "system", content := "orig" },
                 { role := "user", content := "hi" }]
    model := some "m0", provider := some "openai", stream := false
    max_tokens := some 50, temperature := some (7 / 10), tools := none
    user_id := some "u", session_id := none, experiment_id := some "exp" }

/-- A variant overriding every request field, with a system prompt. -/
def varOverride : ExperimentVariant :=
  { variant_id := "b", name := "B", provider := "anthropic"
    model := "claude", temperature := 1 / 2
    max_tokens := some 100, system_prompt := some "SP" }

/-- Manager state after five `record_metrics` calls with latencies
500…900 ms against the zeroed fixture row. -/
def fiveCallState : ABTestingManager :=
  [(500 : ℚ), 600, 700, 800, 900].foldl
    (fun acc x => record_metrics acc "exp" "a" 100 (1 / 100) x false) mgrFix

/-! Helper lemmas about the dict embedding. -/

theorem dictLookup_dictSet_self {α : Type} (d : List (String × α))
    (k : String) (v : α) : dictLookup (dictSet d k v) k = some v := by
  induction d with
  | nil => simp [dictSet, dictLookup]
  | cons hd tl ih =>
    obtain ⟨k', v'⟩ := hd
    by_cases h : k' = k
    · simp [dictSet, h, dictLookup]
    · simp [dictSet, h, dictLookup, ih]

theorem dictLookup_dictSet_ne {α : Type} (d : List (String × α))
    (k k2 : String) (v : α) (h : ¬ k = k2) :
    dictLookup (dictSet d k v) k2 = dictLookup d k2 := by
  induction d with
  | nil =>
    show dictLookup [(k, v)] k2 = dictLookup [] k2
    simp [dictLookup, h]
  | cons hd tl ih =>
    obtain ⟨k', v'⟩ := hd
    by_cases h' : k' = k
    · simp only [dictSet, if_pos h', dictLookup]
      rw [if_neg h, if_neg (fun hh => h (h'.symm.trans hh))]
    · simp only [dictSet, if_neg h', dictLookup]
      by_cases h2 : k' = k2
      · rw [if_pos h2, if_pos h2]
      · rw [if_neg h2, if_neg h2]
        exact ih

theorem dictLookup_initFold (variants : List ExperimentVariant)
    (inner0 : List (String × ExperimentMetrics)) (vid : String) :
    dictLookup
      (variants.foldl
        (fun acc v => dictSet acc v.variant_id (initMetrics v.variant_id))
        inner0) vid
      = if vid ∈ variants.map ExperimentVariant.variant_id
        then some (initMetrics vid)
        else dictLookup inner0 vid := by
  induction variants generalizing inner0 with
  | nil => simp
  | cons v vs ih =>
    simp only [List.foldl_cons]
    rw [ih (dictSet inner0 v.variant_id (initMetrics v.variant_id))]
    by_cases hvs : vid ∈ vs.map ExperimentVariant.variant_id
    · rw [if_pos hvs, if_pos]
      simp [hvs]
    · rw [if_neg hvs]
      by_cases hv : v.variant_id = vid
      · subst hv
        rw [dictLookup_dictSet_self, if_pos]
        simp
      · rw [dictLookup_dictSet_ne _ _ _ _ hv, if_neg]
        simp only [List.map_cons, List.mem_cons]
        rintro (h | h)
        · exact hv h.symm
        · exact hvs h

theorem create_experiment_success_state (m : ABTestingManager)
    (e : Experiment)
    (h1 : (99 : ℚ) / 100 ≤ (e.traffic_split.map Prod.snd).sum)
    (h2 : (e.traffic_split.map Prod.snd).sum ≤ (101 : ℚ) / 100)
    (hids : sameSetB (e.variants.map ExperimentVariant.variant_id)
        (e.traffic_split.map Prod.fst) = true) :
    (create_experiment m e).1 = true
    ∧ dictLookup (create_experiment m e).2.experiments e.experiment_id
        = some e
    ∧ ∀ v ∈ e.variants,
        (dictLookup (create_experiment m e).2.metrics e.experiment_id).bind
          (fun inner => dictLookup inner v.variant_id)
        = some (initMetrics v.variant_id) := by
  simp only [create_experiment]
  rw [if_neg (not_not_intro ⟨h1, h2⟩), if_neg (not_not_intro hids)]
  refine ⟨rfl, ?_, ?_⟩
  · exact dictLookup_dictSet_self _ _ _
  · intro v hv
    rw [dictLookup_dictSet_self]
    simp only [Option.some_bind]
    rw [dictLookup_initFold]
    rw [if_pos (List.mem_map_of_mem _ hv)]

/-- C5: `create_experiment` rejects a split whose sum is outside
`[0.99, 1.01]`, and rejects mismatched id sets, in both cases returning
`False` with the manager state exactly unchanged (so no experiment entry
and no metrics row is created); when both checks pass it returns `True`,
stores the experiment, and initializes one zeroed metrics row per
variant. -/
theorem create_experiment_validation (m : ABTestingManager) (e : Experiment) :
    (¬ ((99 : ℚ) / 100 ≤ (e.traffic_split.map Prod.snd).sum
          ∧ (e.traffic_split.map Prod.snd).sum ≤ (101 : ℚ) / 100) →
       create_experiment m e = (false, m))
    ∧ (sameSetB (e.variants.map ExperimentVariant.variant_id)
          (e.traffic_split.map Prod.fst) = false →
       create_experiment m e = (false, m))
    ∧ ((99 : ℚ) / 100 ≤ (e.traffic_split.map Prod.snd).sum →
       (e.traffic_split.map Prod.snd).sum ≤ (101 : ℚ) / 100 →
       sameSetB (e.variants.map ExperimentVariant.variant_id)
          (e.traffic_split.map Prod.fst) = true →
       (create_experiment m e).1 = true
       ∧ dictLookup (create_experiment m e).2.experiments e.experiment_id
           = some e
       ∧ ∀ v ∈ e.variants,
           (dictLookup (create_experiment m e).2.metrics
               e.experiment_id).bind
             (fun inner => dictLookup inner v.variant_id)
           = some (initMetrics v.variant_id)) := by
  refine ⟨?_, ?_, ?_⟩
  · intro h
    simp only [create_experiment]
    rw [if_pos h]
  · intro h
    simp only [create_experiment]
    by_cases hs : ((99 : ℚ) / 100 ≤ (e.traffic_split.map Prod.snd).sum
        ∧ (e.traffic_split.map Prod.snd).sum ≤ (101 : ℚ) / 100)
    · rw [if_neg (not_not_intro hs), if_pos]
      simp [h]
    · rw [if_pos hs]
  · intro h1 h2 hids
    exact create_experiment_success_state m e h1 h2 hids

/-- Closed instance of `create_experiment_validation`: a split summing to
0.8 and one summing to 1.2 are rejected with no state change, mismatched
id sets are rejected, and the valid fixture is stored with zeroed rows. -/
theorem create_experiment_validation_witness :
    create_experiment mgrEmpty expBad08 = (false, mgrEmpty)
    ∧ create_experiment mgrEmpty expBad12 = (false, mgrEmpty)
    ∧ create_experiment mgrEmpty expBadIds = (false, mgrEmpty)
    ∧ (create_experiment mgrEmpty expFix).1 = true
    ∧ (dictLookup (create_experiment mgrEmpty expFix).2.metrics "exp").bind
        (fun inner => dictLookup inner "a") = some (initMetrics "a") := by
  refine ⟨?_, ?_, ?_, ?_, ?_⟩
  · exact (create_experiment_validation mgrEmpty expBad08).1
      (by with_unfolding_all decide)
  · exact (create_experiment_validation mgrEmpty expBad12).1
      (by with_unfolding_all decide)
  · exact (create_experiment_validation mgrEmpty expBadIds).2.1
      (by with_unfolding_all decide)
  · exact ((create_experiment_validation mgrEmpty expFix).2.2
      (by with_unfolding_all decide) (by with_unfolding_all decide)
      (by with_unfolding_all decide)).1
  · have h := ((create_experiment_validation mgrEmpty expFix).2.2
      (by with_unfolding_all decide) (by with_unfolding_all decide)
      (by with_unfolding_all decide)).2.2 variantA
      (by with_unfolding_all decide)
    exact h

/-- C6: for a known (experiment, variant) pair, `record_metrics`
increments the request count by one, adds the tokens and cost to the
totals, and updates the average latency and error rate by the online
formulas with `n` the pre-increment request count, leaving the
experiment registry untouched; consequently, starting from a zeroed row,
five calls with latencies 500, 600, 700, 800, 900 yield an average
latency of exactly 700 over 5 requests. -/
theorem record_metrics_online_update (m : ABTestingManager)
    (eid vid : String) (inner : List (String × ExperimentMetrics))
    (mt : ExperimentMetrics) (tokens : Nat) (cost latency : ℚ)
    (error : Bool)
    (hi : dictLookup m.metrics eid = some inner)
    (hv : dictLookup inner vid = some mt) :
    ((dictLookup (record_metrics m eid vid tokens cost latency error).metrics
        eid).bind (fun inner2 => dictLookup inner2 vid)
      = some { mt with
          total_requests := mt.total_requests + 1
          total_tokens := mt.total_tokens + tokens
          total_cost := mt.total_cost + cost
          avg_latency_ms :=
            (mt.avg_latency_ms * (mt.total_requests : ℚ) + latency)
              / ((mt.total_requests : ℚ) + 1)
          error_rate :=
            (mt.error_rate * (mt.total_requests : ℚ)
                + (if error then 1 else 0))
              / ((mt.total_requests : ℚ) + 1) })
    ∧ (record_metrics m eid vid tokens cost latency error).experiments
        = m.experiments
    ∧ ((dictLookup fiveCallState.metrics "exp").bind
          (fun i => dictLookup i "a")).map ExperimentMetrics.avg_latency_ms
        = some 700
    ∧ ((dictLookup fiveCallState.metrics "exp").bind
          (fun i => dictLookup i "a")).map ExperimentMetrics.total_requests
        = some 5 := by
  refine ⟨?_, ?_, ?_, ?_⟩
  · simp only [record_metrics, hi, hv]
    rw [dictLookup_dictSet_self]
    simp only [Option.some_bind]
    rw [dictLookup_dictSet_self]
  · simp only [record_metrics, hi, hv]
  · with_unfolding_all decide
  · with_unfolding_all decide

/-- Closed instance of `record_metrics_online_update` on the zeroed
fixture row: one call with 42 tokens, cost 0.05, latency 500 and an
error produces the expected row. -/
theorem record_metrics_online_update_witness :
    (dictLookup (record_metrics mgrFix "exp" "a" 42 (1 / 20) 500
        true).metrics "exp").bind (fun inner2 => dictLookup inner2 "a")
      = some { variant_id := "a", total_requests := 1, total_tokens := 42
               total_cost := 1 / 20, avg_latency_ms := 500
               error_rate := 1, user_satisfaction := none } := by
  exact ((record_metrics_online_update mgrFix "exp" "a"
      [("a", initMetrics "a"), ("b", initMetrics "b")] (initMetrics "a")
      42 (1 / 20) 500 true (by with_unfolding_all decide)
      (by with_unfolding_all decide)).1).trans
    (by with_unfolding_all decide)

/-- C8: `record_metrics` and `record_satisfaction` on an experiment or
variant id unknown to the engine are silent no-ops: both functions are
total (the source has no raising path — only `not in` membership tests,
which do not populate the `defaultdict`), and the manager state —
experiment and metrics maps included — is returned exactly unchanged. -/
theorem unknown_ids_are_noops (m : ABTestingManager) (eid vid : String)
    (tokens : Nat) (cost latency score : ℚ) (error : Bool)
    (h : (dictLookup m.metrics eid).bind
        (fun inner => dictLookup inner vid) = none) :
    record_metrics m eid vid tokens cost latency error = m
    ∧ record_satisfaction m eid vid score = m := by
  constructor
  · cases hi : dictLookup m.metrics eid with
    | none => simp [record_metrics, hi]
    | some inner =>
      cases hvv : dictLookup inner vid with
      | none => simp [record_metrics, hi, hvv]
      | some mt =>
        rw [hi] at h
        simp only [Option.some_bind] at h
        rw [hvv] at h
        cases h
  · cases hi : dictLookup m.metrics eid with
    | none => simp [record_satisfaction, hi]
    | some inner =>
      cases hvv : dictLookup inner vid with
      | none => simp [record_satisfaction, hi, hvv]
      | some mt =>
        rw [hi] at h
        simp only [Option.some_bind] at h
        rw [hvv] at h
        cases h

/-- Closed instance of `unknown_ids_are_noops`: an unknown experiment id
and an unknown variant id both leave the fixture manager unchanged. -/
theorem unknown_ids_are_noops_witness :
    (record_metrics mgrFix "nope" "a" 5 1 100 false = mgrFix
      ∧ record_satisfaction mgrFix "nope" "a" (1 / 2) = mgrFix)
    ∧ (record_metrics mgrFix "exp" "zz" 5 1 100 false = mgrFix
      ∧ record_satisfaction mgrFix "exp" "zz" (1 / 2) = mgrFix) := by
  constructor
  · exact unknown_ids_are_noops mgrFix "nope" "a" 5 1 100 (1 / 2) false
      (by with_unfolding_all decide)
  · exact unknown_ids_are_noops mgrFix "exp" "zz" 5 1 100 (1 / 2) false
      (by with_unfolding_all decide)

/-- C10: re-registering an already registered experiment id with a valid
configuration returns `True` and silently replaces the stored
experiment; every variant of the new configuration gets a freshly zeroed
metrics row (previously accumulated metrics for those ids are lost),
while rows of old variant ids absent from the new configuration stay in
the metrics map as stale entries. -/
theorem create_experiment_overwrite (m : ABTestingManager)
    (e eOld : Experiment)
    (_hreg : dictLookup m.experiments e.experiment_id = some eOld)
    (h1 : (99 : ℚ) / 100 ≤ (e.traffic_split.map Prod.snd).sum)
    (h2 : (e.traffic_split.map Prod.snd).sum ≤ (101 : ℚ) / 100)
    (hids : sameSetB (e.variants.map ExperimentVariant.variant_id)
        (e.traffic_split.map Prod.fst) = true) :
    (create_experiment m e).1 = true
    ∧ dictLookup (create_experiment m e).2.experiments e.experiment_id
        = some e
    ∧ (∀ v ∈ e.variants,
        (dictLookup (create_experiment m e).2.metrics e.experiment_id).bind
          (fun inner => dictLookup inner v.variant_id)
          = some (initMetrics v.variant_id))
    ∧ (∀ vid mtOld,
        dictLookup ((dictLookup m.metrics e.experiment_id).getD []) vid
          = some mtOld →
        ¬ vid ∈ e.variants.map ExperimentVariant.variant_id →
        (dictLookup (create_experiment m e).2.metrics e.experiment_id).bind
          (fun inner => dictLookup inner vid)
          = some mtOld) := by
  have base := create_experiment_success_state m e h1 h2 hids
  refine ⟨base.1, base.2.1, base.2.2, ?_⟩
  intro vid mtOld hold hnot
  simp only [create_experiment]
  rw [if_neg (not_not_intro ⟨h1, h2⟩), if_neg (not_not_intro hids)]
  rw [dictLookup_dictSet_self]
  simp only [Option.some_bind]
  rw [dictLookup_initFold, if_neg hnot]
  exact hold

/-! Argmax machinery for `get_winner`. -/

theorem find?_congrOn {α : Type} (p q : α → Bool) (l : List α)
    (h : ∀ x ∈ l, p x = q x) : l.find? p = l.find? q := by
  induction l with
  | nil => rfl
  | cons a as ih =>
    have ha := h a (List.mem_cons_self a as)
    have hrest : ∀ x ∈ as, p x = q x :=
      fun x hx => h x (List.mem_cons_of_mem a hx)
    cases hqa : q a with
    | true =>
      rw [List.find?_cons_of_pos _ (ha.trans hqa),
        List.find?_cons_of_pos _ hqa]
    | false =>
      rw [List.find?_cons_of_neg _ (by rw [ha, hqa]; exact Bool.false_ne_true),
        List.find?_cons_of_neg _ (by rw [hqa]; exact Bool.false_ne_true)]
      exact ih hrest

theorem exists_first_max (l : List (String × ExperimentMetrics))
    (hne : ¬ l = []) :
    ∃ p, p ∈ l ∧ ∀ q ∈ l, winnerScore q.2 ≤ winnerScore p.2 := by
  induction l with
  | nil => exact absurd rfl hne
  | cons a rest ih =>
    by_cases hrest : rest = []
    · subst hrest
      refine ⟨a, List.mem_cons_self a [], ?_⟩
      intro q hq
      rcases List.mem_cons.mp hq with h | h
      · subst h; exact le_refl _
      · cases h
    · obtain ⟨p, hp, hmax⟩ := ih hrest
      rcases le_total (winnerScore p.2) (winnerScore a.2) with hle | hle
      · refine ⟨a, List.mem_cons_self a rest, ?_⟩
        intro q hq
        rcases List.mem_cons.mp hq with h | h
        · subst h; exact le_refl _
        · exact le_trans (hmax q h) hle
      · refine ⟨p, List.mem_cons_of_mem a hp, ?_⟩
        intro q hq
        rcases List.mem_cons.mp hq with h | h
        · subst h; exact hle
        · exact hmax q h

theorem winnerFold_some_eq (rows : List (String × ExperimentMetrics)) :
    ∀ (bv : String) (bs : ℚ),
    winnerFold (some (bv, bs)) rows
      = match rows.find? (fun p => decide (bs < winnerScore p.2)
            && rows.all (fun q => decide (winnerScore q.2 ≤ winnerScore p.2)))
          with
        | some p => some p.1
        | none => some bv := by
  induction rows with
  | nil => intro bv bs; rfl
  | cons hd rest ih =>
    intro bv bs
    obtain ⟨vid, mt⟩ := hd
    show (if bs < winnerScore mt then
            winnerFold (some (vid, winnerScore mt)) rest
          else winnerFold (some (bv, bs)) rest) = _
    by_cases hbs : bs < winnerScore mt
    · rw [if_pos hbs, ih]
      by_cases hall : rest.all
          (fun q => decide (winnerScore q.2 ≤ winnerScore mt)) = true
      · rw [List.find?_cons_of_pos _
          (by simp [List.all_cons, hbs, hall])]
        have hnone : rest.find? (fun p => decide (winnerScore mt < winnerScore p.2)
            && rest.all (fun q => decide (winnerScore q.2 ≤ winnerScore p.2)))
            = none := by
          rw [List.find?_eq_none]
          intro x hx
          simp only [List.all_eq_true, decide_eq_true_eq] at hall
          simp only [Bool.and_eq_true, decide_eq_true_eq, not_and]
          intro hlt
          exact absurd (hall x hx) (not_le.mpr hlt)
        rw [hnone]
      · have hexw : ∃ w ∈ rest, winnerScore mt < winnerScore w.2 := by
          simp only [List.all_eq_true, decide_eq_true_eq] at hall
          push_neg at hall
          obtain ⟨w, hw, hws⟩ := hall
          exact ⟨w, hw, hws⟩
        obtain ⟨w, hw, hws⟩ := hexw
        rw [List.find?_cons_of_neg _ (by simp [List.all_cons, hall])]
        have hcongr : rest.find? (fun p => decide (winnerScore mt < winnerScore p.2)
              && rest.all (fun q => decide (winnerScore q.2 ≤ winnerScore p.2)))
            = rest.find? (fun p => decide (bs < winnerScore p.2)
              && ((vid, mt) :: rest).all
                (fun q => decide (winnerScore q.2 ≤ winnerScore p.2))) := by
          apply find?_congrOn
          intro x hx
          by_cases hxall : rest.all
              (fun q => decide (winnerScore q.2 ≤ winnerScore x.2)) = true
          · have hwx : winnerScore w.2 ≤ winnerScore x.2 := by
              simp only [List.all_eq_true, decide_eq_true_eq] at hxall
              exact hxall w hw
            have hsx : winnerScore mt < winnerScore x.2 := lt_of_lt_of_le hws hwx
            simp [List.all_cons, hxall, hsx, lt_trans hbs hsx, le_of_lt hsx]
          · simp [List.all_cons, hxall]
        rw [hcongr]
        have hssome : ∃ p ∈ rest, (fun p => decide (bs < winnerScore p.2)
              && ((vid, mt) :: rest).all
                (fun q => decide (winnerScore q.2 ≤ winnerScore p.2))) p = true := by
          obtain ⟨pm, hpm, hpmax⟩ := exists_first_max rest
            (by rintro rfl; cases hw)
          have hwpm : winnerScore w.2 ≤ winnerScore pm.2 := hpmax w hw
          have hspm : winnerScore mt < winnerScore pm.2 := lt_of_lt_of_le hws hwpm
          refine ⟨pm, hpm, ?_⟩
          simp only [List.all_cons, Bool.and_eq_true, decide_eq_true_eq]
          refine ⟨lt_trans hbs hspm, le_of_lt hspm, ?_⟩
          simp only [List.all_eq_true, decide_eq_true_eq]
          intro q hq
          exact hpmax q hq
        have : (rest.find? (fun p => decide (bs < winnerScore p.2)
              && ((vid, mt) :: rest).all
                (fun q => decide (winnerScore q.2 ≤ winnerScore p.2)))).isSome := by
          rw [List.find?_isSome]
          obtain ⟨p, hp, hpp⟩ := hssome
          exact ⟨p, hp, hpp⟩
        obtain ⟨res, hres⟩ := Option.isSome_iff_exists.mp this
        rw [hres]
    · rw [if_neg hbs, ih]
      rw [List.find?_cons_of_neg _ (by simp [hbs])]
      have hcongr : rest.find? (fun p => decide (bs < winnerScore p.2)
            && rest.all (fun q => decide (winnerScore q.2 ≤ winnerScore p.2)))
          = rest.find? (fun p => decide (bs < winnerScore p.2)
            && ((vid, mt) :: rest).all
              (fun q => decide (winnerScore q.2 ≤ winnerScore p.2))) := by
        apply find?_congrOn
        intro x hx
        by_cases hxall : rest.all
            (fun q => decide (winnerScore q.2 ≤ winnerScore x.2)) = true
        · by_cases hbx : bs < winnerScore x.2
          · have hsx : winnerScore mt ≤ winnerScore x.2 :=
              le_trans (not_lt.mp hbs) (le_of_lt hbx)
            simp [List.all_cons, hxall, hbx, hsx]
          · simp [List.all_cons, hbx]
        · simp [List.all_cons, hxall]
      rw [hcongr]

theorem winnerFold_none_eq (rows : List (String × ExperimentMetrics)) :
    winnerFold none rows = firstMaxBy winnerScore rows := by
  cases rows with
  | nil => rfl
  | cons hd rest =>
    obtain ⟨vid, mt⟩ := hd
    show winnerFold (some (vid, winnerScore mt)) rest = _
    rw [winnerFold_some_eq]
    simp only [firstMaxBy]
    by_cases hall : rest.all
        (fun q => decide (winnerScore q.2 ≤ winnerScore mt)) = true
    · rw [List.find?_cons_of_pos _ (by simp [List.all_cons, hall])]
      have hnone : rest.find? (fun p => decide (winnerScore mt < winnerScore p.2)
          && rest.all (fun q => decide (winnerScore q.2 ≤ winnerScore p.2)))
          = none := by
        rw [List.find?_eq_none]
        intro x hx
        simp only [List.all_eq_true, decide_eq_true_eq] at hall
        simp only [Bool.and_eq_true, decide_eq_true_eq, not_and]
        intro hlt
        exact absurd (hall x hx) (not_le.mpr hlt)
      rw [hnone]
      rfl
    · have hexw : ∃ w ∈ rest, winnerScore mt < winnerScore w.2 := by
        simp only [List.all_eq_true, decide_eq_true_eq] at hall
        push_neg at hall
        obtain ⟨w, hw, hws⟩ := hall
        exact ⟨w, hw, hws⟩
      obtain ⟨w, hw, hws⟩ := hexw
      rw [List.find?_cons_of_neg _ (by simp [List.all_cons, hall])]
      have hcongr : rest.find? (fun p => decide (winnerScore mt < winnerScore p.2)
            && rest.all (fun q => decide (winnerScore q.2 ≤ winnerScore p.2)))
          = rest.find? (fun p => ((vid, mt) :: rest).all
              (fun q => decide (winnerScore q.2 ≤ winnerScore p.2))) := by
        apply find?_congrOn
        intro x hx
        by_cases hxall : rest.all
            (fun q => decide (winnerScore q.2 ≤ winnerScore x.2)) = true
        · have hwx : winnerScore w.2 ≤ winnerScore x.2 := by
            simp only [List.all_eq_true, decide_eq_true_eq] at hxall
            exact hxall w hw
          have hsx : winnerScore mt < winnerScore x.2 := lt_of_lt_of_le hws hwx
          simp [List.all_cons, hxall, hsx, le_of_lt hsx]
        · simp [List.all_cons, hxall]
      rw [hcongr]
      have : (rest.find? (fun p => ((vid, mt) :: rest).all
            (fun q => decide (winnerScore q.2 ≤ winnerScore p.2)))).isSome := by
        rw [List.find?_isSome]
        obtain ⟨pm, hpm, hpmax⟩ := exists_first_max rest (by rintro rfl; cases hw)
        have hwpm : winnerScore w.2 ≤ winnerScore pm.2 := hpmax w hw
        have hspm : winnerScore mt < winnerScore pm.2 := lt_of_lt_of_le hws hwpm
        refine ⟨pm, hpm, ?_⟩
        simp only [List.all_cons, Bool.and_eq_true, decide_eq_true_eq]
        refine ⟨le_of_lt hspm, ?_⟩
        simp only [List.all_eq_true, decide_eq_true_eq]
        intro q hq
        exact hpmax q hq
      obtain ⟨res, hres⟩ := Option.isSome_iff_exists.mp this
      rw [hres]
      rfl

/-- C7 (amended): for a registered experiment, `get_winner` scores each
row as `0.4*(1-errorRate) + 0.3*(1 - min(avgLatencyMs/5000, 1)) +
0.3*sat`, where `sat` is the recorded satisfaction when it is present
and nonzero and `0.5` otherwise (Python's `or 0.5` treats a recorded
`0.0` as missing), and returns the first-seen variant id attaining the
highest score. -/
theorem get_winner_first_seen_max (m : ABTestingManager) (eid : String)
    (e : Experiment) (he : dictLookup m.experiments eid = some e) :
    get_winner m eid
      = firstMaxBy amendedScore ((dictLookup m.metrics eid).getD []) := by
  have hscore : winnerScore = amendedScore := by
    funext mt
    cases hs : mt.user_satisfaction with
    | none =>
      simp only [winnerScore, amendedScore, satOrHalf, hs]
      ring
    | some s =>
      by_cases h0 : s = 0
      · simp only [winnerScore, amendedScore, satOrHalf, hs, h0, if_pos]
        ring
      · simp only [winnerScore, amendedScore, satOrHalf, hs, if_neg h0]
        ring
  simp only [get_winner, he]
  rw [winnerFold_none_eq, hscore]

/-- Closed instance of `get_winner_first_seen_max`: of two variants with
error rate 1.0 / latency 800 ms and error rate 0.0 / latency 400 ms, the
second is selected. -/
theorem get_winner_first_seen_max_witness :
    get_winner mgrWinnerPair "exp" = some "b" := by
  have h := get_winner_first_seen_max mgrWinnerPair "exp" expFix
    (by with_unfolding_all decide)
  exact h.trans (by with_unfolding_all decide)

/-- Counterexample to C7 as stated: with a recorded satisfaction of
exactly 0.0 on variant `a`, the as-is scoring of the claim makes `b` the
winner, but `get_winner` substitutes 0.5 for the falsy 0.0 and selects
`a`. -/
theorem get_winner_satisfaction_zero_counterexample :
    get_winner mgrSatZero "exp" = some "a"
    ∧ claimWinner mgrSatZero "exp" = some "b" := by
  constructor
  · with_unfolding_all decide
  · with_unfolding_all decide

/-- Closed instance of `create_experiment_overwrite`: re-registering
`"exp"` over `mgrReReg` succeeds, re-zeroes the row of the surviving
variant id `a` (its accumulated `rowUsed` is lost), creates a zeroed row
for the new id `b`, and leaves the stale row of the dropped id `old`. -/
theorem create_experiment_overwrite_witness :
    (create_experiment mgrReReg expFix).1 = true
    ∧ dictLookup (create_experiment mgrReReg expFix).2.experiments "exp"
        = some expFix
    ∧ (dictLookup (create_experiment mgrReReg expFix).2.metrics "exp").bind
        (fun inner => dictLookup inner "a") = some (initMetrics "a")
    ∧ (dictLookup (create_experiment mgrReReg expFix).2.metrics "exp").bind
        (fun inner => dictLookup inner "old") = some rowStale := by
  have h := create_experiment_overwrite mgrReReg expFix expOld
    (by with_unfolding_all decide) (by with_unfolding_all decide)
    (by with_unfolding_all decide) (by with_unfolding_all decide)
  refine ⟨h.1, h.2.1, ?_, ?_⟩
  · exact h.2.2.1 variantA (by with_unfolding_all decide)
  · exact h.2.2.2 "old" rowStale (by with_unfolding_all decide)
      (by with_unfolding_all decide)

/-! The deterministic assignment walk of `assign_variant`. -/

theorem assignWalk_eq_specWalk (split : List (String × ℚ)) (r : ℚ)
    (fb : Except String (Option ExperimentVariant)) :
    ∀ (variants : List ExperimentVariant) (c : ℚ),
    (∀ v ∈ variants, (dictLookup split v.variant_id).isSome = true) →
    assignWalk split r fb c variants
      = match (variants.zip (scanSums c (variants.map
            (fun v => (dictLookup split v.variant_id).getD 0)))).find?
              (fun p => decide (r < p.2)) with
        | some p => Except.ok (some p.1)
        | none => fb := by
  intro variants
  induction variants with
  | nil => intro c _; rfl
  | cons v vs ih =>
    intro c hids
    obtain ⟨f, hf⟩ := Option.isSome_iff_exists.mp
      (hids v (List.mem_cons_self v vs))
    show (match dictLookup split v.variant_id with
          | none => Except.error "KeyError"
          | some f =>
            if r < c + f then Except.ok (some v)
            else assignWalk split r fb (c + f) vs) = _
    rw [hf]
    simp only [List.map_cons, scanSums, List.zip_cons_cons]
    rw [show (dictLookup split v.variant_id).getD 0 = f by rw [hf]; rfl]
    by_cases hr : r < c + f
    · rw [if_pos hr, List.find?_cons_of_pos _ (by simpa using hr)]
    · rw [if_neg hr, List.find?_cons_of_neg _ (by simpa using hr)]
      exact ih (c + f) (fun w hw => hids w (List.mem_cons_of_mem v hw))

/-- C1: for a registered experiment that is active, whose end date has
not passed, and whose variant ids all appear in the traffic split (as
registration guarantees), `assign_variant` returns exactly the variant
prescribed by the specification's deterministic algorithm — hash the
string `experimentId:userId:salt`, parse the first 16 hex digits as an
unsigned integer, reduce modulo 10000, normalize to `[0,1)` and bucket
by cumulative traffic split with fallback to the first declared
variant — and in particular repeated calls (at any time before the end
date) return the identical variant, with no per-call randomness. -/
theorem assign_variant_deterministic_bucketing
    (sha256hex : String → String) (now now2 : Int) (m : ABTestingManager)
    (eid uid : String) (e : Experiment) (hv : Nat)
    (he : dictLookup m.experiments eid = some e)
    (hact : e.is_active = true)
    (hend : ∀ d, e.end_date = some d → ¬ d < now)
    (hend2 : ∀ d, e.end_date = some d → ¬ d < now2)
    (hhex : intFromHex ((sha256hex
        (eid ++ ":" ++ uid ++ ":" ++ m.salt)).take 16) = some hv)
    (hids : ∀ v ∈ e.variants,
        (dictLookup e.traffic_split v.variant_id).isSome = true)
    (hne : ¬ e.variants = []) :
    assign_variant sha256hex now m eid uid
        = Except.ok (specAssignVariant e hv)
    ∧ assign_variant sha256hex now m eid uid
        = assign_variant sha256hex now2 m eid uid := by
  have main : ∀ (t : Int), (∀ d, e.end_date = some d → ¬ d < t) →
      assign_variant sha256hex t m eid uid
        = Except.ok (specAssignVariant e hv) := by
    intro t hendt
    unfold assign_variant
    rw [he]
    dsimp only
    rw [if_neg (by rw [hact]; decide)]
    have hdate : (match e.end_date with
        | some d => decide (d < t)
        | none => false) = false := by
      cases hd : e.end_date with
      | none => rfl
      | some d => simpa using hendt d hd
    rw [if_neg (by rw [hdate]; decide)]
    rw [hhex]
    dsimp only
    rw [assignWalk_eq_specWalk e.traffic_split _ _ e.variants 0 hids]
    simp only [specAssignVariant, specPickVariant]
    cases hfind : (e.variants.zip (scanSums 0 (e.variants.map
        (fun v => (dictLookup e.traffic_split v.variant_id).getD 0)))).find?
          (fun p => decide ((((hv % 10000 : ℕ) : ℚ) / 10000) < p.2)) with
    | some p => rfl
    | none =>
      cases hvar : e.variants with
      | nil => exact absurd hvar hne
      | cons v vs => rfl
  exact ⟨main now hend, (main now hend).trans (main now2 hend2).symm⟩

/-- Closed instance of `assign_variant_deterministic_bucketing`: with
the all-zero hash stand-in the fixture user lands in the first bucket
(`variantA`), identically at two different times. -/
theorem assign_variant_deterministic_bucketing_witness :
    assign_variant shaFix 0 mgrFix "exp" "user1"
        = Except.ok (some variantA)
    ∧ assign_variant shaFix 0 mgrFix "exp" "user1"
        = assign_variant shaFix 12345 mgrFix "exp" "user1" := by
  have h := assign_variant_deterministic_bucketing shaFix 0 12345 mgrFix
    "exp" "user1" expFix 0
    (by with_unfolding_all decide) (by with_unfolding_all decide)
    (by intro d hd; cases hd) (by intro d hd; cases hd)
    (by with_unfolding_all decide) (by with_unfolding_all decide)
    (by with_unfolding_all decide)
  have hs : specAssignVariant expFix 0 = some variantA := by
    with_unfolding_all decide
  exact ⟨h.1.trans (by rw [hs]), h.2⟩

/-! The fallback loop of the provider router. -/

theorem completeLoop_prefix_fail (env : ProviderEnv) (total : Nat)
    (hfb : env.enable_fallback = true) :
    ∀ (pre : List String) (a : Nat) (name : String)
      (rest attempts : List String) (last : Option String)
      (p payload : String),
    (∀ q ∈ pre, env.providers.contains q = true
        ∧ isFailureB (env.behavior q) = true) →
    a + pre.length ≤ total →
    env.providers.contains name = true →
    env.behavior name = CallOutcome.success p payload →
    completeLoop env total a (pre ++ name :: rest) attempts last
      = (failEvents env a pre ++ [FallbackEvent.call name],
         Except.ok (p, payload)) := by
  intro pre
  induction pre with
  | nil =>
    intro a name rest attempts last p payload _ _ hname hsucc
    show completeLoop env total a (name :: rest) attempts last = _
    unfold completeLoop
    rw [if_neg (by rw [hname]; decide)]
    rw [hsucc]
    simp [failEvents]
  | cons q pre' ih =>
    intro a name rest attempts last p payload hpre hlen hname hsucc
    have hq := hpre q (List.mem_cons_self q pre')
    have hpre' : ∀ x ∈ pre', env.providers.contains x = true
        ∧ isFailureB (env.behavior x) = true :=
      fun x hx => hpre x (List.mem_cons_of_mem q hx)
    have halt : a < total := by
      simp only [List.length_cons] at hlen
      omega
    have hlen' : a + 1 + pre'.length ≤ total := by
      simp only [List.length_cons] at hlen
      omega
    show completeLoop env total a (q :: (pre' ++ name :: rest))
        attempts last = _
    unfold completeLoop
    rw [if_neg (by rw [hq.1]; decide)]
    cases hb : env.behavior q with
    | success p2 payload2 =>
      have := hq.2
      rw [hb] at this
      simp [isFailureB] at this
    | rateLimit msg =>
      dsimp only
      rw [if_pos ⟨hfb, halt⟩]
      rw [ih (a + 1) name rest _ (some msg) p payload hpre' hlen' hname hsucc]
      simp [failEvents, hb]
    | providerError msg =>
      dsimp only
      rw [if_pos ⟨hfb, halt⟩]
      rw [ih (a + 1) name rest _ (some msg) p payload hpre' hlen' hname hsucc]
      simp [failEvents, hb]

/-- C2: with fallback enabled, `complete_with_fallback` builds the
attempt order as the caller's provider followed by the remaining
registration order (or the full registration order), tries candidates in
that order returning immediately on the first success, sleeps
`min(2 ** attempt, 10)` seconds after a rate-limited candidate before
the next one (so a first-attempt rate limit waits exactly 2 seconds),
and moves on with no backoff after any other provider error; with
fallback disabled a failing first candidate stops the run with the
aggregate error. -/
theorem complete_with_fallback_order_backoff
    (env : ProviderEnv) (pn : Option String) (pre : List String)
    (name : String) (post : List String) (p payload : String)
    (hfb : env.enable_fallback = true)
    (horder : provider_order env pn = pre ++ name :: post)
    (hpre : ∀ q ∈ pre, env.providers.contains q = true
        ∧ isFailureB (env.behavior q) = true)
    (hname : env.providers.contains name = true)
    (hsucc : env.behavior name = CallOutcome.success p payload) :
    complete_with_fallback env pn
      = (failEvents env 1 pre ++ [FallbackEvent.call name],
         Except.ok (p, payload))
    ∧ (∀ q, provider_order env (some q)
        = q :: env.fallback_order.filter (fun x => ¬ x = q))
    ∧ provider_order env none = env.fallback_order
    ∧ (∀ n msg, env.behavior n = CallOutcome.rateLimit msg →
        failEvents env 1 [n]
          = [FallbackEvent.call n, FallbackEvent.sleep 2])
    ∧ (∀ (envd : ProviderEnv) (n : String) (rest : List String) (msg : String),
        envd.enable_fallback = false →
        envd.fallback_order = n :: rest →
        envd.providers.contains n = true →
        envd.behavior n = CallOutcome.rateLimit msg →
        complete_with_fallback envd none
          = ([FallbackEvent.call n],
             Except.error (aggregateMessage
               [n ++ ": Rate limit exceeded"] (some msg)))) := by
  refine ⟨?_, fun q => rfl, rfl, ?_, ?_⟩
  · unfold complete_with_fallback
    rw [horder]
    apply completeLoop_prefix_fail env _ hfb pre 1 name post [] none
      p payload hpre ?_ hname hsucc
    simp only [List.length_append, List.length_cons]
    omega
  · intro n msg hn
    simp [failEvents, hn]
  · intro envd n rest msg hdis hord hreg hrl
    unfold complete_with_fallback provider_order
    rw [hord]
    unfold completeLoop
    rw [if_neg (by rw [hreg]; decide)]
    rw [hrl]
    dsimp only
    rw [if_neg (by rw [hdis]; rintro ⟨h, _⟩; cases h)]
    rw [List.nil_append]

/-- Closed instance of `complete_with_fallback_order_backoff`: `alpha`
rate-limited and `beta` succeeding gives `beta`'s result after exactly
two provider calls with the mandated 2-second backoff in between. -/
theorem complete_with_fallback_order_backoff_witness :
    complete_with_fallback envRateLimited none
      = ([FallbackEvent.call "alpha", FallbackEvent.sleep 2,
          FallbackEvent.call "beta"], Except.ok ("beta", "ok")) := by
  have h := complete_with_fallback_order_backoff envRateLimited none
    ["alpha"] "beta" [] "beta" "ok" (by with_unfolding_all decide) rfl
    (by
      intro q hq
      rw [List.mem_singleton] at hq
      subst hq
      exact ⟨by with_unfolding_all decide, by with_unfolding_all decide⟩)
    (by with_unfolding_all decide) (by with_unfolding_all decide)
  exact h.1.trans (by with_unfolding_all decide)

theorem completeLoop_all_fail (env : ProviderEnv) (total : Nat)
    (hfb : env.enable_fallback = true) :
    ∀ (cands : List String) (lastName : String) (a : Nat)
      (attempts : List String) (last : Option String),
    (∀ q ∈ cands ++ [lastName], env.providers.contains q = true
        ∧ isFailureB (env.behavior q) = true) →
    a + cands.length = total →
    completeLoop env total a (cands ++ [lastName]) attempts last
      = (failEvents env a cands ++ [FallbackEvent.call lastName],
         Except.error (aggregateMessage
           (attempts ++ (cands ++ [lastName]).map (attemptEntry env))
           (rawErrorMsg (env.behavior lastName)))) := by
  intro cands
  induction cands with
  | nil =>
    intro lastName a attempts last hall hlen
    have ha : a = total := by simpa using hlen
    have hq := hall lastName (by simp)
    show completeLoop env total a (lastName :: []) attempts last = _
    unfold completeLoop
    rw [if_neg (by rw [hq.1]; decide)]
    cases hb : env.behavior lastName with
    | success p2 payload2 =>
      have := hq.2
      rw [hb] at this
      simp [isFailureB] at this
    | rateLimit msg =>
      dsimp only
      rw [if_neg (by rintro ⟨_, hlt⟩; omega)]
      simp [failEvents, attemptEntry, rawErrorMsg, hb]
    | providerError msg =>
      dsimp only
      rw [if_neg (by rintro ⟨_, hlt⟩; omega)]
      simp [failEvents, attemptEntry, rawErrorMsg, hb]
  | cons q cands' ih =>
    intro lastName a attempts last hall hlen
    have hq := hall q (by simp)
    have hrest : ∀ x ∈ cands' ++ [lastName],
        env.providers.contains x = true
        ∧ isFailureB (env.behavior x) = true := by
      intro x hx
      apply hall
      simp only [List.cons_append, List.mem_cons]
      exact Or.inr hx
    have hlen' : a + 1 + cands'.length = total := by
      simp only [List.length_cons] at hlen
      omega
    have halt : a < total := by
      simp only [List.length_cons] at hlen
      omega
    show completeLoop env total a (q :: (cands' ++ [lastName]))
        attempts last = _
    unfold completeLoop
    rw [if_neg (by rw [hq.1]; decide)]
    cases hb : env.behavior q with
    | success p2 payload2 =>
      have := hq.2
      rw [hb] at this
      simp [isFailureB] at this
    | rateLimit msg =>
      dsimp only
      rw [if_pos ⟨hfb, halt⟩]
      rw [ih lastName (a + 1) _ (some msg) hrest hlen']
      simp [failEvents, attemptEntry, hb, List.append_assoc]
    | providerError msg =>
      dsimp only
      rw [if_pos ⟨hfb, halt⟩]
      rw [ih lastName (a + 1) _ (some msg) hrest hlen']
      simp [failEvents, attemptEntry, hb, List.append_assoc]

theorem streamLoop_all_fail (env : ProviderEnv) (total : Nat)
    (hfb : env.enable_fallback = true) :
    ∀ (cands : List String) (lastName : String) (a : Nat)
      (last : Option String),
    (∀ q ∈ cands ++ [lastName], env.providers.contains q = true
        ∧ streamFailB (env.streamOutcome q) = true) →
    a + cands.length = total →
    streamLoop env total a (cands ++ [lastName]) last
      = (streamFailEvents env a cands
          ++ FallbackEvent.call lastName
            :: (env.streamChunks lastName).map FallbackEvent.yieldChunk,
         Except.error ("All streaming providers failed. Last error: "
           ++ showLastError (streamRawMsg (env.streamOutcome lastName)))) := by
  intro cands
  induction cands with
  | nil =>
    intro lastName a last hall hlen
    have ha : a = total := by simpa using hlen
    have hq := hall lastName (by simp)
    show streamLoop env total a (lastName :: []) last = _
    unfold streamLoop
    rw [if_neg (by rw [hq.1]; decide)]
    cases hb : env.streamOutcome lastName with
    | done =>
      have := hq.2
      rw [hb] at this
      simp [streamFailB] at this
    | rateLimit msg =>
      dsimp only
      rw [if_neg (by rintro ⟨_, hlt⟩; omega)]
      simp [streamFailEvents, streamRawMsg, showLastError, hb]
    | failed msg =>
      dsimp only
      rw [if_neg (by rintro ⟨_, hlt⟩; omega)]
      simp [streamFailEvents, streamRawMsg, showLastError, hb]
  | cons q cands' ih =>
    intro lastName a last hall hlen
    have hq := hall q (by simp)
    have hrest : ∀ x ∈ cands' ++ [lastName],
        env.providers.contains x = true
        ∧ streamFailB (env.streamOutcome x) = true := by
      intro x hx
      apply hall
      simp only [List.cons_append, List.mem_cons]
      exact Or.inr hx
    have hlen' : a + 1 + cands'.length = total := by
      simp only [List.length_cons] at hlen
      omega
    have halt : a < total := by
      simp only [List.length_cons] at hlen
      omega
    show streamLoop env total a (q :: (cands' ++ [lastName])) last = _
    unfold streamLoop
    rw [if_neg (by rw [hq.1]; decide)]
    cases hb : env.streamOutcome q with
    | done =>
      have := hq.2
      rw [hb] at this
      simp [streamFailB] at this
    | rateLimit msg =>
      dsimp only
      rw [if_pos ⟨hfb, halt⟩]
      rw [ih lastName (a + 1) (some msg) hrest hlen']
      simp [streamFailEvents, hb, List.append_assoc]
    | failed msg =>
      dsimp only
      rw [if_pos ⟨hfb, halt⟩]
      rw [ih lastName (a + 1) (some msg) hrest hlen']
      simp [streamFailEvents, hb, List.append_assoc]

/-- C3 (amended): with fallback enabled and every candidate failing,
`complete_with_fallback` raises the aggregate error that names every
attempted provider with its failure reason and appends the last raw
error, while `stream_with_fallback` raises a single terminal error
carrying only the last raw error — it does not enumerate the attempted
providers. -/
theorem exhausted_providers_error_contents
    (env : ProviderEnv) (pn : Option String) (cands : List String)
    (lastName : String)
    (hfb : env.enable_fallback = true)
    (horder : provider_order env pn = cands ++ [lastName]) :
    ((∀ q ∈ cands ++ [lastName], env.providers.contains q = true
        ∧ isFailureB (env.behavior q) = true) →
      complete_with_fallback env pn
        = (failEvents env 1 cands ++ [FallbackEvent.call lastName],
           Except.error (aggregateMessage
             ((cands ++ [lastName]).map (attemptEntry env))
             (rawErrorMsg (env.behavior lastName)))))
    ∧ ((∀ q ∈ cands ++ [lastName], env.providers.contains q = true
        ∧ streamFailB (env.streamOutcome q) = true) →
      stream_with_fallback env pn
        = (streamFailEvents env 1 cands
            ++ FallbackEvent.call lastName
              :: (env.streamChunks lastName).map FallbackEvent.yieldChunk,
           Except.error ("All streaming providers failed. Last error: "
             ++ showLastError (streamRawMsg (env.streamOutcome lastName))))) := by
  constructor
  · intro hall
    unfold complete_with_fallback
    rw [horder]
    rw [completeLoop_all_fail env _ hfb cands lastName 1 [] none hall
      (by simp [List.length_append]; omega)]
    rw [List.nil_append]
  · intro hall
    unfold stream_with_fallback
    rw [horder]
    rw [streamLoop_all_fail env _ hfb cands lastName 1 none hall
      (by simp [List.length_append]; omega)]

/-- Closed instance of `exhausted_providers_error_contents` on
`envAllFail`: the single-shot aggregate error lists both providers with
their reasons; the stream error carries only the last raw error. -/
theorem exhausted_providers_error_contents_witness :
    complete_with_fallback envAllFail none
      = ([FallbackEvent.call "alpha", FallbackEvent.call "beta"],
         Except.error ("All providers failed. Attempts: "
           ++ "alpha: errA; beta: errB. Last error: errB"))
    ∧ stream_with_fallback envAllFail none
      = ([FallbackEvent.call "alpha", FallbackEvent.call "beta"],
         Except.error "All streaming providers failed. Last error: errB") := by
  have h := exhausted_providers_error_contents envAllFail none ["alpha"]
    "beta" (by with_unfolding_all decide) rfl
  constructor
  · exact (h.1 (by with_unfolding_all decide)).trans
      (by with_unfolding_all decide)
  · exact (h.2 (by with_unfolding_all decide)).trans
      (by with_unfolding_all decide)

/-- Counterexample to C3 as stated: when both providers of `envAllFail`
fail, the terminal error of `stream_with_fallback` names neither the
first attempted provider (`alpha`) nor its failure reason (`errA`) — it
carries only the last raw error — even though `alpha` was attempted. -/
theorem stream_error_not_aggregate_counterexample :
    (stream_with_fallback envAllFail none).1
      = [FallbackEvent.call "alpha", FallbackEvent.call "beta"]
    ∧ (stream_with_fallback envAllFail none).2
      = Except.error "All streaming providers failed. Last error: errB"
    ∧ strContains "All streaming providers failed. Last error: errB"
        "alpha" = false
    ∧ strContains "All streaming providers failed. Last error: errB"
        "errA" = false
    ∧ strContains
        "All providers failed. Attempts: alpha: errA; beta: errB. Last error: errB"
        "alpha" = true := by
  refine ⟨?_, ?_, ?_, ?_, ?_⟩
  · with_unfolding_all decide
  · with_unfolding_all decide
  · with_unfolding_all decide
  · with_unfolding_all decide
  · with_unfolding_all decide

/-- Counterexample to C4 as stated: in `envMidStream` provider `alpha`
yields a chunk downstream and then fails mid-stream, yet
`stream_with_fallback` silently retries with `beta` and delivers its
chunks after the partially delivered one, ending the stream normally —
a provider call occurs after a chunk has been yielded. -/
theorem stream_failover_after_chunk_counterexample :
    stream_with_fallback envMidStream none
      = ([FallbackEvent.call "alpha", FallbackEvent.yieldChunk "a1",
          FallbackEvent.call "beta", FallbackEvent.yieldChunk "b1"],
         Except.ok ())
    ∧ noFailoverAfterChunk (stream_with_fallback envMidStream none).1
        = false := by
  constructor
  · with_unfolding_all decide
  · with_unfolding_all decide

/-- C4 (amended): in `stream_with_fallback`, a mid-stream provider
failure with fallback enabled and candidates remaining is retried
against the next candidate even after chunks have been yielded to the
caller: the already-delivered chunks stay delivered and the run
continues with the remaining candidates (only when fallback is disabled
or no candidate remains is the failure surfaced as the terminal stream
error). -/
theorem stream_midstream_failover (env : ProviderEnv) (pn : Option String)
    (name : String) (rest : List String) (msg : String)
    (hfb : env.enable_fallback = true)
    (horder : provider_order env pn = name :: rest)
    (hreg : env.providers.contains name = true)
    (hfail : env.streamOutcome name = StreamEnd.failed msg)
    (hrest : ¬ rest = []) :
    stream_with_fallback env pn
      = (FallbackEvent.call name
          :: ((env.streamChunks name).map FallbackEvent.yieldChunk
            ++ (streamLoop env (name :: rest).length 2 rest (some msg)).1),
         (streamLoop env (name :: rest).length 2 rest (some msg)).2) := by
  unfold stream_with_fallback
  rw [horder]
  conv_lhs => unfold streamLoop
  rw [if_neg (by rw [hreg]; decide)]
  rw [hfail]
  dsimp only
  rw [if_pos ⟨hfb, by
    simp only [List.length_cons]
    have := List.length_pos.mpr hrest
    omega⟩]
  rfl

/-- Closed instance of `stream_midstream_failover` on `envMidStream`:
after `alpha` delivers one chunk and fails, `beta`'s chunk follows it
and the stream ends normally. -/
theorem stream_midstream_failover_witness :
    stream_with_fallback envMidStream none
      = (FallbackEvent.call "alpha"
          :: ((envMidStream.streamChunks "alpha").map FallbackEvent.yieldChunk
            ++ (streamLoop envMidStream 2 2 ["beta"] (some "boom")).1),
         (streamLoop envMidStream 2 2 ["beta"] (some "boom")).2) := by
  exact stream_midstream_failover envMidStream none "alpha" ["beta"] "boom"
    (by with_unfolding_all decide) rfl (by with_unfolding_all decide)
    (by with_unfolding_all decide) (by with_unfolding_all decide)

/-- Counterexample to C9 as stated: the override step does not produce a
modified copy — it mutates the caller's request object in place, so
after the step the object the caller holds differs from the original
request and coincides with the request the router receives. -/
theorem override_mutates_caller_request_counterexample :
    ¬ (experimentOverrideStep reqFix (some varOverride)).callerRequest
        = reqFix
    ∧ (experimentOverrideStep reqFix (some varOverride)).callerRequest
        = (experimentOverrideStep reqFix (some varOverride)).routerRequest := by
  constructor
  · with_unfolding_all decide
  · with_unfolding_all decide

/-- C9 (amended): when a variant is assigned, the experiment override
step updates the single shared request object in place — afterwards the
caller's object and the router input are the same overridden request,
with provider, model and temperature replaced by the variant's values —
and a truthy variant system prompt is prepended as a new leading system
message, leaving every existing message (including an existing system
message) in place. -/
theorem experiment_override_in_place_prepend (req : ChatRequest)
    (v : ExperimentVariant) (sp : String)
    (hsp : v.system_prompt = some sp) (hne : ¬ sp = "") :
    (experimentOverrideStep req (some v)).routerRequest
        = applyVariantOverride req v
    ∧ (experimentOverrideStep req (some v)).callerRequest
        = applyVariantOverride req v
    ∧ (applyVariantOverride req v).messages
        = { role := "system", content := sp } :: req.messages
    ∧ (applyVariantOverride req v).provider = some v.provider
    ∧ (applyVariantOverride req v).model = some v.model
    ∧ (applyVariantOverride req v).temperature = some v.temperature := by
  cases hm : v.max_tokens with
  | none =>
    refine ⟨rfl, rfl, ?_, ?_, ?_, ?_⟩ <;>
      simp [applyVariantOverride, hsp, hne, hm]
  | some t =>
    by_cases h0 : t = 0 <;>
      refine ⟨rfl, rfl, ?_, ?_, ?_, ?_⟩ <;>
        simp [applyVariantOverride, hsp, hne, hm, h0]

/-- Closed instance of `experiment_override_in_place_prepend` on the
fixture request: the caller's object ends up overridden, and the prompt
is prepended before the pre-existing system message. -/
theorem experiment_override_in_place_prepend_witness :
    (experimentOverrideStep reqFix (some varOverride)).callerRequest
        = applyVariantOverride reqFix varOverride
    ∧ (applyVariantOverride reqFix varOverride).messages
        = [{ role := "system", content := "SP" },
           { role := "system", content := "orig" },
           { role := "user", content := "hi" }] := by
  have h := experiment_override_in_place_prepend reqFix varOverride "SP"
    (by with_unfolding_all decide) (by with_unfolding_all decide)
  exact ⟨h.2.1, h.2.2.1.trans (by with_unfolding_all decide)⟩
